import Mathlib

/-!
Verification development for the SFU (Selective Forwarding Unit) server in
`src/backend/rust/sfu`.  Each Rust function relevant to the checked claims is
shallowly embedded as an executable Lean definition, translated directly from
the source; theorems about these definitions settle the claims.
-/

namespace SFU

/-! ## RTP packets (webrtc::rtp::packet::Packet, fields used by the SFU) -/

/-- Model of the RTP header fields the SFU reads or rewrites
(`packet.header.ssrc`, `packet.header.payload_type`; the remaining header
fields are carried opaquely as `rest`). -/
structure RtpHeader where
  ssrc : Nat
  payload_type : Nat
  rest : Nat
  deriving Repr, DecidableEq

/-- Model of an RTP packet: header plus payload bytes. -/
structure Packet where
  header : RtpHeader
  payload : List Nat
  deriving Repr, DecidableEq

/-! ## Bounded mpsc channel (tokio::sync::mpsc with capacity 128)

The producer side of a subscriber queue.  `live buf` is an open channel whose
in-flight buffer is `buf`; `closed` is a channel whose consumer was dropped. -/

inductive QueueState where
  | live (buf : List Packet)
  | closed
  deriving Repr, DecidableEq

/-- Result of `Sender::try_send`. -/
inductive TrySendResult where
  | ok
  | full
  | closedErr
  deriving Repr, DecidableEq

/-- Model of `tokio::sync::mpsc::Sender::try_send` on a channel of capacity
`cap`: fails with `closedErr` when the consumer is gone, with `full` when the
buffer holds `cap` packets, and otherwise appends the packet. -/
def trySend (q : QueueState) (p : Packet) (cap : Nat) : QueueState × TrySendResult :=
  match q with
  | .closed => (.closed, .closedErr)
  | .live buf =>
      if buf.length < cap then (.live (buf ++ [p]), .ok) else (.live buf, .full)

/-- Buffer contents of a queue (empty for a closed queue). -/
def QueueState.buffer : QueueState → List Packet
  | .live buf => buf
  | .closed => []

/-! ## BroadcasterWriter and metrics (src/broadcaster.rs) -/

/-- Model of `BroadcasterWriter`: the producer handle of the subscriber queue,
the SSRC to rewrite to, and the payload type to rewrite to (0 = leave
unchanged).  The queue state is stored inline so `broadcast` can be a pure
state transformer. -/
structure BroadcasterWriter where
  queue : QueueState
  ssrc : Nat
  payload_type : Nat
  deriving Repr, DecidableEq

/-- Model of the Prometheus counters touched by `TrackBroadcaster::broadcast`:
`sfu_packets_dropped_total{reason}` for the two reasons, and
`sfu_packets_forwarded_total{media_type}` as a label-indexed family. -/
@[ext] structure Metrics where
  dropped_buffer_full : Nat
  dropped_channel_closed : Nat
  forwarded : String → Nat

/-- Increment `sfu_packets_forwarded_total` at label `kind`. -/
def Metrics.incForwarded (m : Metrics) (kind : String) : Metrics :=
  { m with forwarded := fun k => if k = kind then m.forwarded k + 1 else m.forwarded k }

/-- The all-zero counter state. -/
def Metrics.zero : Metrics :=
  { dropped_buffer_full := 0, dropped_channel_closed := 0, forwarded := fun _ => 0 }

/-- Per-subscriber clone with header rewriting, as in
`TrackBroadcaster::broadcast` (src/broadcaster.rs:177-181): clone the packet,
set the clone's SSRC to the writer's SSRC, and rewrite the payload type only
when the writer's payload type is nonzero. -/
def rewritePacket (p : Packet) (w : BroadcasterWriter) : Packet :=
  { p with header :=
      { p.header with
        ssrc := w.ssrc,
        payload_type := if w.payload_type ≠ 0 then w.payload_type else p.header.payload_type } }

/-- One iteration of the `for w in writers.iter()` loop body of
`TrackBroadcaster::broadcast` (src/broadcaster.rs:176-211): build the
per-writer clone, `try_send` it, and update the counters.  `d` is the static
`DROP_COUNT` used for throttled logging.  Returns the writer with its updated
queue, the new metrics, and the new drop count. -/
def broadcastStep (kind : String) (p : Packet) (w : BroadcasterWriter)
    (m : Metrics) (d : Nat) : BroadcasterWriter × Metrics × Nat :=
  let pc := rewritePacket p w
  match trySend w.queue pc 128 with
  | (q', .ok) => ({ w with queue := q' }, m.incForwarded kind, d)
  | (q', .full) =>
      ({ w with queue := q' },
       { m with dropped_buffer_full := m.dropped_buffer_full + 1 }, d + 1)
  | (q', .closedErr) =>
      ({ w with queue := q' },
       { m with dropped_channel_closed := m.dropped_channel_closed + 1 }, d)

/-- The writer loop of `TrackBroadcaster::broadcast` over the writer list. -/
def broadcastGo (kind : String) (p : Packet) :
    List BroadcasterWriter → Metrics → Nat → List BroadcasterWriter × Metrics × Nat
  | [], m, d => ([], m, d)
  | w :: ws, m, d =>
      let (w', m', d') := broadcastStep kind p w m d
      let (ws', m'', d'') := broadcastGo kind p ws m' d'
      (w' :: ws', m'', d'')

/-- Model of `TrackBroadcaster::broadcast` (src/broadcaster.rs:170-212).
Takes the broadcaster's `kind` and writer list, the current counters, the
static `DROP_COUNT`, and the packet; returns the writer list (with updated
queue buffers), the counters, and the drop count.  The early return on an
empty writer list is kept from the source. -/
def TrackBroadcaster.broadcast (kind : String) (writers : List BroadcasterWriter)
    (m : Metrics) (d : Nat) (packet : Packet) :
    List BroadcasterWriter × Metrics × Nat :=
  if writers.isEmpty then (writers, m, d)
  else broadcastGo kind packet writers m d

/-- Outcome of the non-blocking send attempted for one writer `w` when
`broadcast` processes packet `p`; depends only on `w` and `p`. -/
def sendOutcome (p : Packet) (w : BroadcasterWriter) : TrySendResult :=
  (trySend w.queue (rewritePacket p w) 128).2

/-- Queue state of writer `w` after `broadcast` processed packet `p` for it;
depends only on `w` and `p`. -/
def postQueue (p : Packet) (w : BroadcasterWriter) : QueueState :=
  (trySend w.queue (rewritePacket p w) 128).1

/-- Calling `broadcast` `n` times in a row with the same packet (the shape of
the zombie-writer regression scenario). -/
def broadcastN (kind : String) (p : Packet) :
    Nat → List BroadcasterWriter × Metrics × Nat → List BroadcasterWriter × Metrics × Nat
  | 0, st => st
  | n + 1, (ws, m, d) => broadcastN kind p n (TrackBroadcaster.broadcast kind ws m d p)

/-- Unfolding of the writer loop of `broadcast`: every writer's queue is
updated by its own `try_send` only, and the counters advance by per-outcome
counts over the writer list. -/
theorem broadcastGo_spec (kind : String) (p : Packet) (ws : List BroadcasterWriter)
    (m : Metrics) (d : Nat) :
    broadcastGo kind p ws m d =
      (ws.map (fun w => { w with queue := postQueue p w }),
       { dropped_buffer_full :=
           m.dropped_buffer_full + ws.countP (fun w => sendOutcome p w == .full),
         dropped_channel_closed :=
           m.dropped_channel_closed + ws.countP (fun w => sendOutcome p w == .closedErr),
         forwarded := fun k =>
           if k = kind then m.forwarded k + ws.countP (fun w => sendOutcome p w == .ok)
           else m.forwarded k },
       d + ws.countP (fun w => sendOutcome p w == .full)) := by
  induction ws generalizing m d with
  | nil =>
      simp only [broadcastGo, List.map_nil, List.countP_nil, Nat.add_zero]
      refine Prod.ext rfl (Prod.ext ?_ rfl)
      ext k
      · rfl
      · rfl
      · simp
  | cons w ws ih =>
      simp only [broadcastGo, broadcastStep]
      rcases hts : trySend w.queue (rewritePacket p w) 128 with ⟨q', r⟩
      have houtcome : sendOutcome p w = r := by simp [sendOutcome, hts]
      have hpost : postQueue p w = q' := by simp [postQueue, hts]
      cases r with
      | ok =>
          simp only [ih, List.map_cons, List.countP_cons, houtcome, hpost]
          refine Prod.ext ?_ (Prod.ext ?_ ?_)
          · simp
          · ext k
            · simp [Metrics.incForwarded]
            · simp [Metrics.incForwarded]
            · by_cases hk : k = kind
              · simp [Metrics.incForwarded, hk]
                omega
              · simp [Metrics.incForwarded, hk]
          · simp
      | full =>
          simp only [ih, List.map_cons, List.countP_cons, houtcome, hpost]
          refine Prod.ext ?_ (Prod.ext ?_ ?_)
          · simp
          · ext k
            · simp
              omega
            · simp
            · by_cases hk : k = kind <;> simp [hk]
          · simp
            omega
      | closedErr =>
          simp only [ih, List.map_cons, List.countP_cons, houtcome, hpost]
          refine Prod.ext ?_ (Prod.ext ?_ ?_)
          · simp
          · ext k
            · simp
            · simp
              omega
            · by_cases hk : k = kind <;> simp [hk]
          · simp

/-- C1: `TrackBroadcaster::broadcast` attempts one non-blocking send per
writer, and the outcome for each writer depends only on that writer's own
queue state (the result list is a pointwise `map` over the writer list, so no
writer's queue state can affect another's send).  A full queue bumps
`packets_dropped{buffer_full}`, a closed queue bumps
`packets_dropped{channel_closed}`, and each success bumps
`packets_forwarded{media_type = kind}`; `broadcast` is a total function of its
inputs and never waits on any queue. -/
theorem C1_broadcast_nonblocking_per_writer (kind : String)
    (ws : List BroadcasterWriter) (m : Metrics) (d : Nat) (p : Packet) :
    (TrackBroadcaster.broadcast kind ws m d p).1
        = ws.map (fun w => { w with queue := postQueue p w })
    ∧ (TrackBroadcaster.broadcast kind ws m d p).2.1.dropped_buffer_full
        = m.dropped_buffer_full + ws.countP (fun w => sendOutcome p w == .full)
    ∧ (TrackBroadcaster.broadcast kind ws m d p).2.1.dropped_channel_closed
        = m.dropped_channel_closed + ws.countP (fun w => sendOutcome p w == .closedErr)
    ∧ (TrackBroadcaster.broadcast kind ws m d p).2.1.forwarded kind
        = m.forwarded kind + ws.countP (fun w => sendOutcome p w == .ok) := by
  unfold TrackBroadcaster.broadcast
  by_cases hempty : ws.isEmpty
  · rcases ws with _ | ⟨w, ws⟩
    · simp
    · simp [List.isEmpty] at hempty
  · simp only [hempty, if_false, broadcastGo_spec]
    refine ⟨rfl, rfl, rfl, ?_⟩
    simp

/-- C2: the packet enqueued for a writer `w` is a per-writer clone of the
broadcast packet whose header SSRC is `w.ssrc` and whose payload type is
`w.payload_type` when that is nonzero and the original payload type otherwise
(first conjunct); inside `broadcast` the packet offered to writer `i` is built
from the original packet and writer `i` alone (second conjunct); and a writer's
queue only ever gains its own rewritten clone, never a packet rewritten for a
different writer (third conjunct). -/
theorem C2_per_writer_clone_headers :
    (∀ (p : Packet) (w : BroadcasterWriter),
        (rewritePacket p w).header.ssrc = w.ssrc
        ∧ (rewritePacket p w).header.payload_type
            = (if w.payload_type ≠ 0 then w.payload_type else p.header.payload_type)
        ∧ (rewritePacket p w).payload = p.payload)
    ∧ (∀ (kind : String) (ws : List BroadcasterWriter) (m : Metrics) (d : Nat)
        (p : Packet) (i : Nat),
        (TrackBroadcaster.broadcast kind ws m d p).1[i]?
          = ws[i]?.map (fun w => { w with queue := postQueue p w }))
    ∧ (∀ (p : Packet) (w : BroadcasterWriter) (q : Packet),
        q ∈ (postQueue p w).buffer → q ∈ w.queue.buffer ∨ q = rewritePacket p w) := by
  refine ⟨fun p w => ⟨rfl, rfl, rfl⟩, ?_, ?_⟩
  · intro kind ws m d p i
    have h1 : (TrackBroadcaster.broadcast kind ws m d p).1
        = ws.map (fun w => { w with queue := postQueue p w }) := by
      unfold TrackBroadcaster.broadcast
      by_cases hempty : ws.isEmpty
      · rcases ws with _ | ⟨w, ws⟩
        · simp
        · simp [List.isEmpty] at hempty
      · simp [hempty, broadcastGo_spec]
    rw [h1, List.getElem?_map]
  · intro p w q hq
    unfold postQueue at hq
    rcases w with ⟨wq, wssrc, wpt⟩
    rcases wq with buf | _
    · simp only [trySend] at hq
      by_cases hlen : buf.length < 128
      · simp only [hlen, if_true, QueueState.buffer, List.mem_append,
          List.mem_singleton] at hq
        rcases hq with h | h
        · exact Or.inl h
        · exact Or.inr h
      · simp only [hlen, if_false, QueueState.buffer] at hq
        exact Or.inl hq
    · simp [trySend, QueueState.buffer] at hq

/-- Witness for `C2_per_writer_clone_headers` at a concrete packet and writer:
a writer with SSRC 222, payload type 0 and an empty live queue; after the send
the queue holds exactly the clone, which is its own rewrite. -/
theorem C2_per_writer_clone_headers_witness :
    ((rewritePacket (Packet.mk (RtpHeader.mk 7 96 0) [9])
        (BroadcasterWriter.mk (QueueState.live []) 222 0)).header.ssrc = 222)
    ∧ ((TrackBroadcaster.broadcast "video"
          [BroadcasterWriter.mk (QueueState.live []) 222 0] Metrics.zero 0
          (Packet.mk (RtpHeader.mk 7 96 0) [9])).1[0]?
        = some (BroadcasterWriter.mk
            (postQueue (Packet.mk (RtpHeader.mk 7 96 0) [9])
              (BroadcasterWriter.mk (QueueState.live []) 222 0)) 222 0))
    ∧ ((rewritePacket (Packet.mk (RtpHeader.mk 7 96 0) [9])
          (BroadcasterWriter.mk (QueueState.live []) 222 0))
        ∈ (BroadcasterWriter.mk (QueueState.live []) 222 0).queue.buffer
        ∨ (rewritePacket (Packet.mk (RtpHeader.mk 7 96 0) [9])
            (BroadcasterWriter.mk (QueueState.live []) 222 0))
          = rewritePacket (Packet.mk (RtpHeader.mk 7 96 0) [9])
              (BroadcasterWriter.mk (QueueState.live []) 222 0)) :=
  ⟨(C2_per_writer_clone_headers.1 (Packet.mk (RtpHeader.mk 7 96 0) [9])
      (BroadcasterWriter.mk (QueueState.live []) 222 0)).1,
   C2_per_writer_clone_headers.2.1 "video"
      [BroadcasterWriter.mk (QueueState.live []) 222 0] Metrics.zero 0
      (Packet.mk (RtpHeader.mk 7 96 0) [9]) 0,
   C2_per_writer_clone_headers.2.2 (Packet.mk (RtpHeader.mk 7 96 0) [9])
      (BroadcasterWriter.mk (QueueState.live []) 222 0)
      (rewritePacket (Packet.mk (RtpHeader.mk 7 96 0) [9])
        (BroadcasterWriter.mk (QueueState.live []) 222 0))
      (by decide)⟩

/-- C3 is refuted by the code: after adding a single writer whose queue
consumer was dropped (a closed channel) and calling `broadcast` 50 times, the
writer list still has length 1 — `broadcast` as written only counts the
channel-closed drop (50 times here) and never prunes the writer, contradicting
the zombie-writer regression test `tests/leak_repro.rs` which asserts length
0. -/
theorem C3_zombie_writer_not_pruned :
    (broadcastN "video" (Packet.mk (RtpHeader.mk 12345 96 0) [1, 2, 3]) 50
        ([BroadcasterWriter.mk QueueState.closed 111 96], Metrics.zero, 0)).1.length = 1
    ∧ (broadcastN "video" (Packet.mk (RtpHeader.mk 12345 96 0) [1, 2, 3]) 50
        ([BroadcasterWriter.mk QueueState.closed 111 96],
          Metrics.zero, 0)).2.1.dropped_channel_closed = 50 := by
  constructor
  · decide
  · decide

/-! ## Keyframe detection (src/track_handler.rs, `detect_keyframe`) -/

/-- Decides whether `needle` occurs at the start of `hay` (character lists). -/
def charsHavePre : List Char → List Char → Bool
  | _, [] => true
  | [], _ :: _ => false
  | h :: hs, n :: ns => (h == n) && charsHavePre hs ns

/-- Decides whether `needle` occurs anywhere inside `hay` (character lists). -/
def charsContain (hay needle : List Char) : Bool :=
  match hay with
  | [] => needle.isEmpty
  | _ :: t => charsHavePre hay needle || charsContain t needle

/-- Model of Rust `str::contains` with a literal pattern. -/
def strContains (hay needle : String) : Bool :=
  charsContain hay.toList needle.toList

/-- Model of `detect_keyframe` (src/track_handler.rs:217-244).  Payload bytes
are naturals below 256; the mime type is matched by substring containment, as
`mime_type.contains("vp8")` / `contains("h264")` in the source (the caller
lowercases the mime type first). -/
def detect_keyframe (payload : List Nat) (mime_type : String) : Bool :=
  if payload.isEmpty then false
  else
    if strContains mime_type "vp8" then
      decide (payload.headD 0 &&& 0x01 = 0)
    else if strContains mime_type "h264" then
      let nal_type := payload.headD 0 &&& 0x1F
      if nal_type = 5 then true
      else if nal_type = 28 ∧ payload.length > 1 then
        decide (payload.getD 1 0 &&& 0x80 ≠ 0 ∧ payload.getD 1 0 &&& 0x1F = 5)
      else false
    else false

/-- C4: `detect_keyframe` returns false on an empty payload; on a VP8 mime
type it is true iff the low bit of the first payload byte is 0; on an H.264
mime type (one that does not also mention vp8) it is true iff the NAL type is
5, or the NAL type is 28 with a second byte whose S bit is set and whose inner
type is 5; and it is false for every other mime type. -/
theorem C4_detect_keyframe_cases :
    (∀ mime : String, detect_keyframe [] mime = false)
    ∧ (∀ (b0 : Nat) (rest : List Nat) (mime : String),
        strContains mime "vp8" = true →
        (detect_keyframe (b0 :: rest) mime = true ↔ b0 &&& 0x01 = 0))
    ∧ (∀ (b0 : Nat) (rest : List Nat) (mime : String),
        strContains mime "h264" = true → strContains mime "vp8" = false →
        (detect_keyframe (b0 :: rest) mime = true ↔
          (b0 &&& 0x1F = 5
           ∨ (b0 &&& 0x1F = 28 ∧ 1 ≤ rest.length
              ∧ rest.headD 0 &&& 0x80 ≠ 0 ∧ rest.headD 0 &&& 0x1F = 5))))
    ∧ (∀ (payload : List Nat) (mime : String),
        strContains mime "vp8" = false → strContains mime "h264" = false →
        detect_keyframe payload mime = false) := by
  refine ⟨fun mime => by simp [detect_keyframe], ?_, ?_, ?_⟩
  · intro b0 rest mime hvp8
    simp [detect_keyframe, hvp8]
  · intro b0 rest mime hh264 hvp8
    simp only [detect_keyframe, List.isEmpty_cons, if_false, Bool.false_eq_true,
      hvp8, hh264, if_true, List.headD_cons]
    by_cases h5 : b0 &&& 0x1F = 5
    · simp [h5]
    · by_cases h28 : b0 &&& 0x1F = 28
      · by_cases hlen : (b0 :: rest).length > 1
        · have hrest : 1 ≤ rest.length := by
            simpa [Nat.lt_iff_add_one_le] using hlen
          rcases rest with _ | ⟨b1, rest'⟩
          · simp at hrest
          · simp [h5, h28, hlen, List.getD]
        · have hrest : rest = [] := by
            rcases rest with _ | ⟨b1, rest'⟩
            · rfl
            · simp at hlen
          subst hrest
          simp [h5, h28]
      · simp [h5, h28]
  · intro payload mime hvp8 hh264
    simp [detect_keyframe, hvp8, hh264]

/-- Witness for `C4_detect_keyframe_cases` at the spec's concrete scenarios:
VP8 payload `[0x10, …]` is a keyframe, H.264 NAL 5 is a keyframe, and an Opus
mime type never is. -/
theorem C4_detect_keyframe_cases_witness :
    (detect_keyframe [] "video/vp8" = false)
    ∧ (detect_keyframe [0x10, 0x01, 0x02, 0x03] "video/vp8" = true ↔
        (0x10 : Nat) &&& 0x01 = 0)
    ∧ (detect_keyframe [0x65, 0x01] "video/h264" = true ↔
        ((0x65 : Nat) &&& 0x1F = 5
         ∨ ((0x65 : Nat) &&& 0x1F = 28 ∧ 1 ≤ ([0x01] : List Nat).length
            ∧ ([0x01] : List Nat).headD 0 &&& 0x80 ≠ 0
            ∧ ([0x01] : List Nat).headD 0 &&& 0x1F = 5)))
    ∧ (detect_keyframe [0x10, 0x01, 0x02, 0x03] "audio/opus" = false) :=
  ⟨C4_detect_keyframe_cases.1 "video/vp8",
   C4_detect_keyframe_cases.2.1 0x10 [0x01, 0x02, 0x03] "video/vp8" (by decide),
   C4_detect_keyframe_cases.2.2.1 0x65 [0x01] "video/h264" (by decide) (by decide),
   C4_detect_keyframe_cases.2.2.2 [0x10, 0x01, 0x02, 0x03] "audio/opus"
     (by decide) (by decide)⟩

/-! ## Outgoing SSRC / payload-type resolution (C5)

Both subscription paths read `rtp_sender.get_parameters()` and derive the
`(ssrc, payload_type)` arguments of `add_writer` from it. -/

/-- Model of the negotiated sender parameters: SSRCs of the encodings and
payload types of the negotiated outgoing codecs, in order. -/
structure SenderParams where
  encoding_ssrcs : List Nat
  codec_payload_types : List Nat
  deriving Repr, DecidableEq

/-- Resolution in the on-track subscription path `setup_subscriber`
(src/track_handler.rs:176-186): SSRC of the first encoding (0 when absent) and
payload type of the first negotiated codec, falling back to the source track's
payload type `incoming_pt` when the outgoing codec list is empty. -/
def setup_subscriber_resolve (params : SenderParams) (incoming_pt : Nat) : Nat × Nat :=
  let ssrc := params.encoding_ssrcs.headD 0
  let pt :=
    match params.codec_payload_types.head? with
    | some c => c
    | none => incoming_pt
  (ssrc, pt)

/-- Resolution in the initial-sync path
`MediaSetup::subscribe_to_existing_tracks` (src/media_setup.rs:181-190): SSRC
of the first encoding (0 when absent) and payload type of the first negotiated
codec, falling back to 0 when the outgoing codec list is empty. -/
def subscribe_existing_resolve (params : SenderParams) : Nat × Nat :=
  let ssrc := params.encoding_ssrcs.headD 0
  let pt :=
    match params.codec_payload_types.head? with
    | some c => c
    | none => 0
  (ssrc, pt)

/-- Counterexample to C5: with identical negotiated parameters — one encoding
with SSRC 5 and an empty outgoing codec list — and source payload type 96, the
initial-sync path resolves payload type 0 (not the source track's 96 the claim
asserts) while the on-track path resolves 96, so the two paths pass different
arguments to `add_writer`. -/
theorem C5_fallback_counterexample :
    (subscribe_existing_resolve (SenderParams.mk [5] [])).2 = 0
    ∧ (setup_subscriber_resolve (SenderParams.mk [5] []) 96).2 = 96
    ∧ subscribe_existing_resolve (SenderParams.mk [5] [])
        ≠ setup_subscriber_resolve (SenderParams.mk [5] []) 96 := by
  refine ⟨rfl, rfl, ?_⟩
  decide

/-- C5 amended: whenever the negotiated outgoing codec list is non-empty the
two subscription paths resolve identical `(ssrc, payload_type)` arguments for
`add_writer`; when it is empty the on-track path falls back to the source
track's payload type while the initial-sync path falls back to 0. -/
theorem C5_resolution_agreement_amended :
    (∀ (params : SenderParams) (incoming_pt : Nat),
        params.codec_payload_types ≠ [] →
        setup_subscriber_resolve params incoming_pt = subscribe_existing_resolve params)
    ∧ (∀ (params : SenderParams) (incoming_pt : Nat),
        params.codec_payload_types = [] →
        (setup_subscriber_resolve params incoming_pt).2 = incoming_pt
        ∧ (subscribe_existing_resolve params).2 = 0) := by
  constructor
  · intro params incoming_pt hne
    rcases params with ⟨encs, codecs⟩
    rcases codecs with _ | ⟨c, cs⟩
    · exact absurd rfl hne
    · rfl
  · intro params incoming_pt hempty
    rcases params with ⟨encs, codecs⟩
    subst hempty
    exact ⟨rfl, rfl⟩

/-- Witness for `C5_resolution_agreement_amended`: a non-empty codec list with
first payload type 102 makes the paths agree, and an empty list splits them
into 96 versus 0. -/
theorem C5_resolution_agreement_amended_witness :
    (setup_subscriber_resolve (SenderParams.mk [5] [102, 96]) 96
        = subscribe_existing_resolve (SenderParams.mk [5] [102, 96]))
    ∧ ((setup_subscriber_resolve (SenderParams.mk [5] []) 96).2 = 96
        ∧ (subscribe_existing_resolve (SenderParams.mk [5] [])).2 = 0) :=
  ⟨C5_resolution_agreement_amended.1 (SenderParams.mk [5] [102, 96]) 96 (by decide),
   C5_resolution_agreement_amended.2 (SenderParams.mk [5] []) 96 rfl⟩

/-! ## ICE-gathering completion waits (C6)

The program waits for ICE-gathering completion at exactly three places; each
is modelled by the timeout the source wraps around `gather_complete.recv()`. -/

/-- The three ICE-gathering wait sites in the source. -/
inductive IceGatherSite where
  /-- `MySfu::create_session_internal`, src/sfu_service.rs:132-144. -/
  | createSession
  /-- The `SdpOffer` arm of `MySfu::handle_signal`, src/sfu_service.rs:361-365. -/
  | handleSignalSdpOffer
  /-- `create_and_gather_offer` of the renegotiation driver,
  src/signaling_handler.rs:71-86. -/
  | renegotiateOffer
  deriving Repr, DecidableEq

/-- Timeout wrapped around the gathering wait at each site, as written in the
source: `tokio::time::timeout(Duration::from_millis(1500), gather_complete.recv())`
is `some 1500` (create_session and the renegotiation driver); the bare
`gather_complete.recv().await` in the SdpOffer arm of handle_signal is
`none`. -/
def iceGatherTimeoutMs : IceGatherSite → Option Nat
  | .createSession => some 1500
  | .handleSignalSdpOffer => none
  | .renegotiateOffer => some 1500

/-- Time (ms) after which a gathering wait returns, given the site's timeout
and the time at which gathering completes (`none` = never): the earlier of
the two, never returning only when both are absent. -/
def iceWaitReturnTime (siteTimeout : Option Nat) (completeAt : Option Nat) : Option Nat :=
  match siteTimeout, completeAt with
  | some t, some c => some (min t c)
  | some t, none => some t
  | none, some c => some c
  | none, none => none

/-- Counterexample to C6: it is not the case that every ICE-gathering wait
returns within 1500 ms — at the `handle_signal` SdpOffer site, when gathering
never completes, the wait never returns (its `recv()` is not wrapped in a
timeout). -/
theorem C6_unbounded_wait_counterexample :
    ¬ ∀ (site : IceGatherSite) (completeAt : Option Nat),
        ∃ t, t ≤ 1500 ∧
          iceWaitReturnTime (iceGatherTimeoutMs site) completeAt = some t := by
  intro h
  rcases h .handleSignalSdpOffer none with ⟨t, _, ht⟩
  simp [iceWaitReturnTime, iceGatherTimeoutMs] at ht

/-- C6 amended: the gathering waits in `create_session` and in the
renegotiation driver are wrapped in hard 1500-ms timeouts and therefore return
within 1500 ms whatever gathering does, but the wait in the `SdpOffer` arm of
`handle_signal` has no timeout and blocks forever if gathering never
completes. -/
theorem C6_gather_timeouts_amended :
    iceGatherTimeoutMs .createSession = some 1500
    ∧ iceGatherTimeoutMs .renegotiateOffer = some 1500
    ∧ (∀ completeAt, ∃ t, t ≤ 1500 ∧
        iceWaitReturnTime (iceGatherTimeoutMs .createSession) completeAt = some t)
    ∧ (∀ completeAt, ∃ t, t ≤ 1500 ∧
        iceWaitReturnTime (iceGatherTimeoutMs .renegotiateOffer) completeAt = some t)
    ∧ iceGatherTimeoutMs .handleSignalSdpOffer = none
    ∧ iceWaitReturnTime (iceGatherTimeoutMs .handleSignalSdpOffer) none = none := by
  refine ⟨rfl, rfl, ?_, ?_, rfl, rfl⟩
  · intro completeAt
    rcases completeAt with _ | c
    · exact ⟨1500, le_refl _, rfl⟩
    · exact ⟨min 1500 c, Nat.min_le_left _ _, rfl⟩
  · intro completeAt
    rcases completeAt with _ | c
    · exact ⟨1500, le_refl _, rfl⟩
    · exact ⟨min 1500 c, Nat.min_le_left _ _, rfl⟩

/-! ## Room registry (src/room_manager.rs, `RoomManager`) -/

/-- Room identifier (equality is string equality on the backing `Arc<String>`). -/
abbrev RoomId := String

/-- User identifier. -/
abbrev UserId := String

/-- Model of `RoomManager`: the `DashMap<RoomId, Vec<UserId>>` as an
association list.  Key order is irrelevant to the claims; each room's user
list keeps insertion order. -/
abbrev RoomManager := List (RoomId × List UserId)

/-- Point lookup of a room's user list. -/
def lookupRoom (rm : RoomManager) (room : RoomId) : Option (List UserId) :=
  (rm.find? (fun e => e.1 == room)).map (fun e => e.2)

/-- Replace the user list stored under `room` (entries with other keys are
untouched). -/
def setRoom (rm : RoomManager) (room : RoomId) (users : List UserId) : RoomManager :=
  rm.map (fun e => if e.1 == room then (room, users) else e)

/-- Drop the entry stored under `room`. -/
def eraseRoom (rm : RoomManager) (room : RoomId) : RoomManager :=
  rm.filter (fun e => e.1 != room)

/-- Model of `RoomManager::add_user` (src/room_manager.rs:25-43): on an
existing room, push the user only if not already present (`and_modify`); on an
absent room insert a fresh single-user list (`or_insert_with`) and report the
room as new. -/
def add_user (rm : RoomManager) (room : RoomId) (user : UserId) : RoomManager × Bool :=
  match lookupRoom rm room with
  | some users =>
      (setRoom rm room (if user ∈ users then users else users ++ [user]), false)
  | none => (rm ++ [(room, [user])], true)

/-- Model of `RoomManager::remove_user` (src/room_manager.rs:45-61): retain
all users other than `user`; when the list becomes empty drop the room and
return true, otherwise (including an absent room) return false. -/
def remove_user (rm : RoomManager) (room : RoomId) (user : UserId) : RoomManager × Bool :=
  match lookupRoom rm room with
  | none => (rm, false)
  | some users =>
      let users' := users.filter (fun x => x != user)
      if users'.isEmpty then (eraseRoom rm room, true)
      else (setRoom rm room users', false)

/-- Model of `RoomManager::get_users` (src/room_manager.rs:63-68). -/
def get_users (rm : RoomManager) (room : RoomId) : List UserId :=
  (lookupRoom rm room).getD []

/-- An `add_user`/`remove_user` call. -/
inductive RoomOp where
  | addUser (room : RoomId) (user : UserId)
  | removeUser (room : RoomId) (user : UserId)
  deriving Repr, DecidableEq

/-- Apply one registry call, discarding the returned Bool. -/
def applyOp (rm : RoomManager) : RoomOp → RoomManager
  | .addUser r u => (add_user rm r u).1
  | .removeUser r u => (remove_user rm r u).1

/-- State of the registry after a sequence of calls starting from empty. -/
def applyOps (ops : List RoomOp) : RoomManager :=
  ops.foldl applyOp []

/-- Well-formedness the `DashMap` guarantees by construction: room keys are
unique, and every stored user list is duplicate-free. -/
def RoomsWF (rm : RoomManager) : Prop :=
  (rm.map Prod.fst).Nodup ∧ ∀ e ∈ rm, e.2.Nodup

theorem setRoom_keys (rm : RoomManager) (r : RoomId) (us : List UserId) :
    (setRoom rm r us).map Prod.fst = rm.map Prod.fst := by
  induction rm with
  | nil => rfl
  | cons e t ih =>
      simp only [setRoom, List.map_cons] at ih ⊢
      by_cases h : (e.1 == r) = true
      · rw [if_pos h, ih]
        simp [eq_of_beq h]
      · rw [if_neg h, ih]

theorem setRoom_not_mem (t : RoomManager) (r : RoomId) (us : List UserId)
    (h : r ∉ t.map Prod.fst) : setRoom t r us = t := by
  induction t with
  | nil => rfl
  | cons e t ih =>
      simp only [List.map_cons, List.mem_cons, not_or] at h
      have he : (e.1 == r) = false := by
        cases hb : (e.1 == r)
        · rfl
        · exact absurd (eq_of_beq hb).symm h.1
      simp only [setRoom, List.map_cons] at ih ⊢
      rw [he]
      simp only [Bool.false_eq_true, if_false]
      rw [ih h.2]

theorem setRoom_lookup_id (rm : RoomManager) (r : RoomId) (us : List UserId)
    (hkeys : (rm.map Prod.fst).Nodup) (hlk : lookupRoom rm r = some us) :
    setRoom rm r us = rm := by
  induction rm with
  | nil => simp [lookupRoom] at hlk
  | cons e t ih =>
      simp only [List.map_cons, List.nodup_cons] at hkeys
      by_cases hb : (e.1 == r) = true
      · have hus : us = e.2 := by
          simp [lookupRoom, List.find?_cons, hb] at hlk
          exact hlk.symm
        have her : e.1 = r := eq_of_beq hb
        have hnot : r ∉ t.map Prod.fst := her ▸ hkeys.1
        have ht : List.map (fun e => if (e.1 == r) = true then (r, us) else e) t = t := by
          simpa [setRoom] using setRoom_not_mem t r us hnot
        simp only [setRoom, List.map_cons] at ih ⊢
        rw [hb]
        simp only [if_true]
        rw [ht, hus, ← her]
      · have hlk' : lookupRoom t r = some us := by
          simpa [lookupRoom, List.find?_cons, hb] using hlk
        simp only [setRoom, List.map_cons] at ih ⊢
        rw [if_neg hb]
        rw [ih hkeys.2 hlk']

theorem lookupRoom_erase (rm : RoomManager) (r : RoomId) :
    lookupRoom (eraseRoom rm r) r = none := by
  have h : List.find? (fun e => e.1 == r) (eraseRoom rm r) = none := by
    rw [List.find?_eq_none]
    intro e he
    have := (List.mem_filter.mp he).2
    simpa [bne] using this
  simp [lookupRoom, h]

theorem lookup_mem_value (rm : RoomManager) (r : RoomId) (us : List UserId)
    (hlk : lookupRoom rm r = some us) : ∃ e ∈ rm, e.2 = us := by
  rcases hfind : rm.find? (fun e => e.1 == r) with _ | e
  · simp [lookupRoom, hfind] at hlk
  · have hmem := List.mem_of_find?_eq_some hfind
    have : e.2 = us := by simpa [lookupRoom, hfind] using hlk
    exact ⟨e, hmem, this⟩

theorem RoomsWF_setRoom (rm : RoomManager) (r : RoomId) (us : List UserId)
    (h : RoomsWF rm) (hus : us.Nodup) : RoomsWF (setRoom rm r us) := by
  refine ⟨by rw [setRoom_keys]; exact h.1, ?_⟩
  intro e he
  rcases List.mem_map.mp he with ⟨e0, he0, heq⟩
  by_cases hb : (e0.1 == r) = true
  · rw [if_pos hb] at heq
    rw [← heq]
    exact hus
  · rw [if_neg hb] at heq
    rw [← heq]
    exact h.2 e0 he0

theorem RoomsWF_add (rm : RoomManager) (r : RoomId) (u : UserId)
    (h : RoomsWF rm) : RoomsWF (add_user rm r u).1 := by
  unfold add_user
  rcases hlk : lookupRoom rm r with _ | users
  · have hfind : rm.find? (fun e => e.1 == r) = none := by
      rcases hf : rm.find? (fun e => e.1 == r) with _ | e
      · exact hf
      · simp [lookupRoom, hf] at hlk
    have hnotkey : r ∉ rm.map Prod.fst := by
      intro hmem
      rcases List.mem_map.mp hmem with ⟨e, he, heq⟩
      have := List.find?_eq_none.mp hfind e he
      simp [heq] at this
    constructor
    · simp only [List.map_append, List.map_cons, List.map_nil]
      rw [List.nodup_append]
      exact ⟨h.1, List.nodup_singleton r, by simpa using hnotkey⟩
    · intro e he
      rcases List.mem_append.mp he with he | he
      · exact h.2 e he
      · simp only [List.mem_singleton] at he
        rw [he]
        exact List.nodup_singleton u
  · rcases lookup_mem_value rm r users hlk with ⟨e0, he0, hval⟩
    have husers : users.Nodup := hval ▸ h.2 e0 he0
    refine RoomsWF_setRoom rm r _ h ?_
    by_cases hu : u ∈ users
    · rw [if_pos hu]
      exact husers
    · rw [if_neg hu]
      rw [List.nodup_append]
      exact ⟨husers, List.nodup_singleton u, by simpa using hu⟩

theorem RoomsWF_remove (rm : RoomManager) (r : RoomId) (u : UserId)
    (h : RoomsWF rm) : RoomsWF (remove_user rm r u).1 := by
  unfold remove_user
  rcases hlk : lookupRoom rm r with _ | users
  · exact h
  · by_cases hempty : (users.filter (fun x => x != u)).isEmpty
    · simp only [hempty, if_true]
      constructor
      · have : (eraseRoom rm r).map Prod.fst |>.Sublist (rm.map Prod.fst) :=
          (List.filter_sublist rm).map Prod.fst
        exact h.1.sublist this
      · intro e he
        exact h.2 e ((List.filter_sublist rm).mem he)
    · simp only [hempty, Bool.false_eq_true, if_false]
      rcases lookup_mem_value rm r users hlk with ⟨e0, he0, hval⟩
      have husers : users.Nodup := hval ▸ h.2 e0 he0
      exact RoomsWF_setRoom rm r _ h (husers.filter _)

theorem RoomsWF_applyOps (ops : List RoomOp) : RoomsWF (applyOps ops) := by
  have base : RoomsWF ([] : RoomManager) := ⟨List.nodup_nil, by simp⟩
  have main : ∀ (ops : List RoomOp) (rm : RoomManager),
      RoomsWF rm → RoomsWF (ops.foldl applyOp rm) := by
    intro ops
    induction ops with
    | nil => intro rm h; exact h
    | cons op ops ih =>
        intro rm h
        rcases op with ⟨r, u⟩ | ⟨r, u⟩
        · exact ih _ (RoomsWF_add rm r u h)
        · exact ih _ (RoomsWF_remove rm r u h)
  exact main ops [] base

/-- C7: `add_user` returns true exactly when the room was absent; re-adding a
user already present leaves the registry unchanged and returns false; and
`remove_user` returns true exactly when the room existed and its user list
became empty, in which case the room is dropped.  Under any call sequence from
the empty registry each room's user list holds every user at most once, and
the spec's concrete scenario 1 plays out as written (including insertion
order). -/
theorem C7_room_registry :
    (∀ (rm : RoomManager) (r : RoomId) (u : UserId),
        (add_user rm r u).2 = true ↔ lookupRoom rm r = none)
    ∧ (∀ (rm : RoomManager) (r : RoomId) (u : UserId),
        RoomsWF rm → u ∈ get_users rm r →
        (add_user rm r u).1 = rm ∧ (add_user rm r u).2 = false)
    ∧ (∀ (rm : RoomManager) (r : RoomId) (u : UserId),
        ((remove_user rm r u).2 = true ↔
          ∃ users, lookupRoom rm r = some users
            ∧ users.filter (fun x => x != u) = [])
        ∧ ((remove_user rm r u).2 = true →
            lookupRoom (remove_user rm r u).1 r = none))
    ∧ (∀ (ops : List RoomOp) (r : RoomId), (get_users (applyOps ops) r).Nodup)
    ∧ ((add_user (applyOps []) "r1" "u1").2 = true
        ∧ (add_user (applyOps [RoomOp.addUser "r1" "u1"]) "r1" "u2").2 = false
        ∧ get_users (applyOps [RoomOp.addUser "r1" "u1", RoomOp.addUser "r1" "u2"])
            "r1" = ["u1", "u2"]
        ∧ (add_user (applyOps [RoomOp.addUser "r1" "u1", RoomOp.addUser "r1" "u2"])
            "r1" "u1").2 = false
        ∧ get_users (applyOps [RoomOp.addUser "r1" "u1", RoomOp.addUser "r1" "u2",
            RoomOp.addUser "r1" "u1"]) "r1" = ["u1", "u2"]
        ∧ (remove_user (applyOps [RoomOp.addUser "r1" "u1", RoomOp.addUser "r1" "u2",
            RoomOp.addUser "r1" "u1"]) "r1" "u1").2 = false
        ∧ (remove_user (applyOps [RoomOp.addUser "r1" "u1", RoomOp.addUser "r1" "u2",
            RoomOp.addUser "r1" "u1", RoomOp.removeUser "r1" "u1"]) "r1" "u2").2 = true
        ∧ get_users (applyOps [RoomOp.addUser "r1" "u1", RoomOp.addUser "r1" "u2",
            RoomOp.addUser "r1" "u1", RoomOp.removeUser "r1" "u1",
            RoomOp.removeUser "r1" "u2"]) "r1" = []) := by
  refine ⟨?_, ?_, ?_, ?_, ?_⟩
  · intro rm r u
    unfold add_user
    rcases hlk : lookupRoom rm r with _ | users
    · simp
    · simp
  · intro rm r u hwf hu
    rcases hlk : lookupRoom rm r with _ | users
    · simp [get_users, hlk] at hu
    · have hu' : u ∈ users := by simpa [get_users, hlk] using hu
      have hadd : add_user rm r u = (setRoom rm r users, false) := by
        unfold add_user
        rw [hlk]
        show (setRoom rm r (if u ∈ users then users else users ++ [u]), false)
            = (setRoom rm r users, false)
        rw [if_pos hu']
      rw [hadd]
      exact ⟨setRoom_lookup_id rm r users hwf.1 hlk, rfl⟩
  · intro rm r u
    constructor
    · unfold remove_user
      rcases hlk : lookupRoom rm r with _ | users
      · simp
      · by_cases hempty : (users.filter (fun x => x != u)).isEmpty
        · simp only [hempty, if_true]
          simp only [true_iff]
          exact ⟨users, rfl, List.isEmpty_iff.mp hempty⟩
        · simp only [hempty, Bool.false_eq_true, if_false]
          constructor
          · intro hfalse
            cases hfalse
          · rintro ⟨us, hus, hfil⟩
            rw [Option.some_inj] at hus
            subst hus
            rw [hfil] at hempty
            simp at hempty
    · intro htrue
      rcases hlk : lookupRoom rm r with _ | users
      · have hr : remove_user rm r u = (rm, false) := by
          unfold remove_user
          rw [hlk]
        rw [hr] at htrue
        cases htrue
      · by_cases hempty : (users.filter (fun x => x != u)).isEmpty
        · have hr : remove_user rm r u = (eraseRoom rm r, true) := by
            unfold remove_user
            rw [hlk]
            simp only [hempty, if_true]
          rw [hr]
          exact lookupRoom_erase rm r
        · have hr : remove_user rm r u
              = (setRoom rm r (users.filter (fun x => x != u)), false) := by
            unfold remove_user
            rw [hlk]
            simp only [hempty, Bool.false_eq_true, if_false]
          rw [hr] at htrue
          cases htrue
  · intro ops r
    have hwf := RoomsWF_applyOps ops
    unfold get_users
    rcases hlk : lookupRoom (applyOps ops) r with _ | users
    · simp
    · rcases lookup_mem_value _ r users hlk with ⟨e, he, hval⟩
      simpa using hval ▸ hwf.2 e he
  · refine ⟨by decide, by decide, by decide, by decide, by decide, by decide,
      by decide, by decide⟩

/-- Witness for `C7_room_registry` at concrete registries: re-adding `u1` to a
room already holding it changes nothing, and removing the last user drops the
room. -/
theorem C7_room_registry_witness :
    ((add_user [("r1", ["u1", "u2"])] "r1" "u1").1 = [("r1", ["u1", "u2"])]
      ∧ (add_user [("r1", ["u1", "u2"])] "r1" "u1").2 = false)
    ∧ lookupRoom (remove_user [("r1", ["u2"])] "r1" "u2").1 "r1" = none :=
  ⟨C7_room_registry.2.1 [("r1", ["u1", "u2"])] "r1" "u1"
      (by unfold RoomsWF; exact ⟨by decide, by decide⟩) (by decide),
   (C7_room_registry.2.2.1 [("r1", ["u2"])] "r1" "u2").2 (by decide)⟩

/-! ## Configuration loading (src/config.rs, `validate_env`) -/

/-- Process environment: variable name → value. -/
abbrev Env := List (String × String)

/-- Model of `std::env::var`. -/
def envVar (env : Env) (name : String) : Option String :=
  (env.find? (fun e => e.1 == name)).map (fun e => e.2)

/-- Model of `u16::from_str` as invoked by `.parse::<u16>()`: an optional
leading plus sign followed by one or more ASCII digits whose value fits in 16
bits. -/
def parseU16 (s : String) : Option Nat :=
  let chars := s.toList
  let digits :=
    match chars with
    | c :: rest => if c == Char.ofNat 43 then rest else chars
    | [] => []
  if digits.isEmpty then none
  else if digits.all (fun c => c.isDigit) then
    let v := digits.foldl (fun a c => a * 10 + (c.toNat - 48)) 0
    if v ≤ 65535 then some v else none
  else none

/-- Model of the `Config` struct (src/config.rs:6-15). -/
structure Config where
  grpc_port : Nat
  metrics_port : Nat
  rust_log : String
  cc_service_addr : String
  deriving Repr, DecidableEq

/-- Model of `ConfigError` (src/config.rs:19-27).  The `ParseIntError` inside
`InvalidPort` is carried as its rendered message. -/
inductive ConfigError where
  | missingVariable (v : String)
  | invalidPort (v : String) (err : String)
  | portOutOfRange (port : Nat)
  deriving Repr, DecidableEq

/-- A single-quote character, used by the `InvalidPort` message. -/
def quoteMark : String := String.singleton (Char.ofNat 39)

/-- Model of `Display for ConfigError` (src/config.rs:29-45).  Note the
source's `InvalidPort` arm formats the variable name into both `{}` slots. -/
def ConfigError.display : ConfigError → String
  | .missingVariable v => v ++ " is required"
  | .invalidPort v err =>
      v ++ " must be a valid port number (got " ++ quoteMark ++ v ++ quoteMark
        ++ ": " ++ err ++ ")"
  | .portOutOfRange port =>
      "GRPC_PORT must be between 1 and 65535 (got " ++ toString port ++ ")"

/-- Model of `validate_env` (src/config.rs:51-90), parameterised by the
process environment.  The `ParseIntError` text is represented by the fixed
message Rust renders for a non-digit input. -/
def validate_env (env : Env) : Except ConfigError Config :=
  match envVar env "GRPC_PORT" with
  | none => .error (.missingVariable "GRPC_PORT")
  | some s =>
      match parseU16 s with
      | none => .error (.invalidPort "GRPC_PORT" "invalid digit found in string")
      | some p =>
          if p = 0 then .error (.portOutOfRange p)
          else
            let rust_log := (envVar env "RUST_LOG").getD "info"
            let cc_service_addr :=
              (envVar env "CC_SERVICE_ADDR").getD "http://localhost:50051"
            match parseU16 ((envVar env "METRICS_PORT").getD "3030") with
            | none => .error (.invalidPort "METRICS_PORT" "invalid digit found in string")
            | some mp => .ok (Config.mk p mp rust_log cc_service_addr)

/-- C8: `validate_env` fails with a message containing "GRPC_PORT is
required" when GRPC_PORT is unset, with "must be a valid port number" when it
does not parse as a u16, and with "must be between 1 and 65535" when it parses
to 0; with GRPC_PORT=50051 and nothing else set it succeeds with
`grpc_port = 50051` and `rust_log = "info"`. -/
theorem C8_validate_env_messages :
    (∀ env : Env, envVar env "GRPC_PORT" = none →
        ∃ e, validate_env env = .error e
          ∧ strContains e.display "GRPC_PORT is required" = true)
    ∧ (∀ (env : Env) (s : String),
        envVar env "GRPC_PORT" = some s → parseU16 s = none →
        ∃ e, validate_env env = .error e
          ∧ strContains e.display "must be a valid port number" = true)
    ∧ (∀ (env : Env) (s : String),
        envVar env "GRPC_PORT" = some s → parseU16 s = some 0 →
        ∃ e, validate_env env = .error e
          ∧ strContains e.display "must be between 1 and 65535" = true)
    ∧ validate_env [("GRPC_PORT", "50051")]
        = .ok (Config.mk 50051 3030 "info" "http://localhost:50051") := by
  refine ⟨?_, ?_, ?_, rfl⟩
  · intro env hg
    refine ⟨.missingVariable "GRPC_PORT", ?_, by decide⟩
    unfold validate_env
    rw [hg]
  · intro env s hg hp
    refine ⟨.invalidPort "GRPC_PORT" "invalid digit found in string", ?_, by decide⟩
    unfold validate_env
    rw [hg]
    show (match parseU16 s with
        | none => Except.error
            (ConfigError.invalidPort "GRPC_PORT" "invalid digit found in string")
        | some p =>
            if p = 0 then Except.error (ConfigError.portOutOfRange p)
            else
              let rust_log := (envVar env "RUST_LOG").getD "info"
              let cc_service_addr :=
                (envVar env "CC_SERVICE_ADDR").getD "http://localhost:50051"
              match parseU16 ((envVar env "METRICS_PORT").getD "3030") with
              | none => Except.error
                  (ConfigError.invalidPort "METRICS_PORT" "invalid digit found in string")
              | some mp => Except.ok (Config.mk p mp rust_log cc_service_addr))
      = Except.error (ConfigError.invalidPort "GRPC_PORT" "invalid digit found in string")
    rw [hp]
  · intro env s hg hp
    refine ⟨.portOutOfRange 0, ?_, by decide⟩
    unfold validate_env
    rw [hg]
    show (match parseU16 s with
        | none => Except.error
            (ConfigError.invalidPort "GRPC_PORT" "invalid digit found in string")
        | some p =>
            if p = 0 then Except.error (ConfigError.portOutOfRange p)
            else
              let rust_log := (envVar env "RUST_LOG").getD "info"
              let cc_service_addr :=
                (envVar env "CC_SERVICE_ADDR").getD "http://localhost:50051"
              match parseU16 ((envVar env "METRICS_PORT").getD "3030") with
              | none => Except.error
                  (ConfigError.invalidPort "METRICS_PORT" "invalid digit found in string")
              | some mp => Except.ok (Config.mk p mp rust_log cc_service_addr))
      = Except.error (ConfigError.portOutOfRange 0)
    rw [hp]
    rfl

/-- Witness for `C8_validate_env_messages` at the spec's concrete
environments: GRPC_PORT unset, "not-a-number", and "0". -/
theorem C8_validate_env_messages_witness :
    (∃ e, validate_env [] = .error e
        ∧ strContains e.display "GRPC_PORT is required" = true)
    ∧ (∃ e, validate_env [("GRPC_PORT", "not-a-number")] = .error e
        ∧ strContains e.display "must be a valid port number" = true)
    ∧ (∃ e, validate_env [("GRPC_PORT", "0")] = .error e
        ∧ strContains e.display "must be between 1 and 65535" = true) :=
  ⟨C8_validate_env_messages.1 [] (by decide),
   C8_validate_env_messages.2.1 [("GRPC_PORT", "not-a-number")] "not-a-number"
     (by decide) (by decide),
   C8_validate_env_messages.2.2.1 [("GRPC_PORT", "0")] "0" (by decide) (by decide)⟩

/-! ## Service façade (src/sfu_service.rs): delete_session and the
listen_events initial snapshot -/

/-- Stream identifier. -/
abbrev StreamId := String

/-- Track identifier. -/
abbrev TrackId := String

/-- Session key `(RoomId, UserId)` of the peer map. -/
abbrev SessionKey := RoomId × UserId

/-- Track key `(RoomId, UserId, StreamId, TrackId)` of the track map. -/
abbrev TrackKey := RoomId × UserId × StreamId × TrackId

/-- Model of a `Peer` as the service façade uses it: only the subscription map
`track_mapping : StreamId → source UserId` matters for the checked claims,
kept as an insertion-ordered association list. -/
structure PeerState where
  track_mapping : List (StreamId × UserId)
  deriving Repr, DecidableEq

/-- Model of one registered `TrackBroadcaster` as the façade reads it: its
kind. -/
structure BroadcasterInfo where
  kind : String
  deriving Repr, DecidableEq

/-- Model of the `MySfu` server state: peer registry, track registry, room
registry, and the two gauges `sfu_active_peers` / `sfu_active_rooms`. -/
structure SfuState where
  peers : List (SessionKey × PeerState)
  tracks : List (TrackKey × BroadcasterInfo)
  rooms : RoomManager
  active_peers : Int
  active_rooms : Int
  deriving Repr, DecidableEq

/-- Point lookup in the peer registry. -/
def lookupPeer (peers : List (SessionKey × PeerState)) (k : SessionKey) :
    Option PeerState :=
  (peers.find? (fun e => decide (e.1 = k))).map (fun e => e.2)

/-- Model of `MySfu::delete_session` (src/sfu_service.rs:392-424).  Returns
the new state, whether a media transport was closed, and the RPC `success`
flag.  When the peer is absent the whole `if let Some` body is skipped and the
call still reports success; otherwise the peer is removed and closed, every
track key with matching `(room, user)` prefix is removed, `sfu_active_peers`
is decremented, and `sfu_active_rooms` is decremented when the room became
empty. -/
def delete_session (st : SfuState) (room user : String) : SfuState × Bool × Bool :=
  match lookupPeer st.peers (room, user) with
  | none => (st, false, true)
  | some _ =>
      let peers2 := st.peers.filter (fun e => decide (e.1 ≠ (room, user)))
      let tracks2 := st.tracks.filter
        (fun e => decide (¬ (e.1.1 = room ∧ e.1.2.1 = user)))
      let rr := remove_user st.rooms room user
      ({ peers := peers2, tracks := tracks2, rooms := rr.1,
         active_peers := st.active_peers - 1,
         active_rooms := if rr.2 then st.active_rooms - 1 else st.active_rooms },
       true, true)

/-- C9: `delete_session` for a `(room, user)` pair with no registered peer
reports `success = true` yet changes nothing: no transport close, no removal
from the track or room registries, and no gauge decrement — the whole cleanup
body runs only when a peer was removed. -/
theorem C9_delete_session_absent_noop (st : SfuState) (room user : String)
    (habsent : lookupPeer st.peers (room, user) = none) :
    delete_session st room user = (st, false, true) := by
  unfold delete_session
  rw [habsent]

/-- Witness for `C9_delete_session_absent_noop` on the empty server state. -/
theorem C9_delete_session_absent_noop_witness :
    delete_session (SfuState.mk [] [] [] 0 0) "room1" "user1"
      = (SfuState.mk [] [] [] 0 0, false, true) :=
  C9_delete_session_absent_noop (SfuState.mk [] [] [] 0 0) "room1" "user1" rfl

/-- One `TrackAddedEvent` of the signaling protobuf surface. -/
structure TrackAddedEvent where
  user_id : String
  stream_id : String
  track_kind : String
  deriving Repr, DecidableEq

/-- Kind resolution of the `listen_events` initial snapshot
(src/sfu_service.rs:271-279): start from "video" and take the kind of the
first track-registry entry whose key matches `(room, source_user, stream, *)`,
if any. -/
def resolveTrackKind (tracks : List (TrackKey × BroadcasterInfo))
    (room source_user stream : String) : String :=
  match tracks.find?
      (fun e => decide (e.1.1 = room ∧ e.1.2.1 = source_user ∧ e.1.2.2.1 = stream)) with
  | some e => e.2.kind
  | none => "video"

/-- Model of the initial per-subscription snapshot loop of
`MySfu::listen_events` (src/sfu_service.rs:265-291): one `TrackAddedEvent` per
`track_mapping` entry, in order, with the kind resolved against the track
registry. -/
def listen_events_snapshot (tracks : List (TrackKey × BroadcasterInfo))
    (room : String) (mapping : List (StreamId × UserId)) : List TrackAddedEvent :=
  mapping.map (fun e =>
    TrackAddedEvent.mk e.2 e.1 (resolveTrackKind tracks room e.2 e.1))

/-- C10: the initial snapshot emits exactly one event per subscription-map
entry (none is skipped and no error is returned), and when no track-registry
entry matches `(room, source_user, stream, *)` the emitted event's kind
defaults to "video". -/
theorem C10_snapshot_defaults_video :
    (∀ (tracks : List (TrackKey × BroadcasterInfo)) (room : String)
        (mapping : List (StreamId × UserId)),
        (listen_events_snapshot tracks room mapping).length = mapping.length)
    ∧ (∀ (tracks : List (TrackKey × BroadcasterInfo)) (room : String)
        (mapping : List (StreamId × UserId)) (i : Nat) (stream src : String),
        mapping[i]? = some (stream, src) →
        (∀ e ∈ tracks, ¬ (e.1.1 = room ∧ e.1.2.1 = src ∧ e.1.2.2.1 = stream)) →
        (listen_events_snapshot tracks room mapping)[i]?
          = some (TrackAddedEvent.mk src stream "video")) := by
  constructor
  · intro tracks room mapping
    exact List.length_map mapping _
  · intro tracks room mapping i stream src hmap hnone
    have hfind : tracks.find?
        (fun e => decide (e.1.1 = room ∧ e.1.2.1 = src ∧ e.1.2.2.1 = stream)) = none := by
      rw [List.find?_eq_none]
      intro e he
      simpa using hnone e he
    have hres : resolveTrackKind tracks room src stream = "video" := by
      unfold resolveTrackKind
      rw [hfind]
    unfold listen_events_snapshot
    rw [List.getElem?_map, hmap]
    show some (TrackAddedEvent.mk src stream (resolveTrackKind tracks room src stream))
        = some (TrackAddedEvent.mk src stream "video")
    rw [hres]

/-- Witness for `C10_snapshot_defaults_video`: a registry holding only an
audio track of another stream leaves the snapshot entry for stream "s1" at the
default kind "video". -/
theorem C10_snapshot_defaults_video_witness :
    (listen_events_snapshot [(("r", "u2", "s2", "t"), BroadcasterInfo.mk "audio")]
        "r" [("s1", "u2")])[0]?
      = some (TrackAddedEvent.mk "u2" "s1" "video") :=
  C10_snapshot_defaults_video.2 [(("r", "u2", "s2", "t"), BroadcasterInfo.mk "audio")]
    "r" [("s1", "u2")] 0 "s1" "u2" (by decide) (by decide)

end SFU

